import Mathlib

/-!
Verification of the tissuemap server (`src/server/server.py`) against its
natural-language specification.

The Python handlers are shallowly embedded as pure Lean functions.  The
filesystem is modelled as explicit finite maps from path strings to byte
lists; external collaborators (the OME-Zarr Pyramid Reader, the `du` and
`rm` utilities, FastAPI's form decoding) are modelled as oracle parameters,
since the spec treats them as external.  Machine byte values are plain
naturals; chunk indices and chunk counts are integers, as FastAPI decodes
the `chunkNumber`/`totalChunks` form fields with Python `int`.
-/

/-- A file's contents: a list of byte values. -/
abbrev Bytes := List Nat

/-- Write (create or overwrite) the file at key `k` in a directory map.
Models Python `open(path, "wb"); write(...)`. -/
def fsWrite (f : String → Option Bytes) (k : String) (v : Bytes) : String → Option Bytes :=
  fun x => if x = k then some v else f x

/-- Delete the file at key `k`.  Models Python `os.remove(path)`. -/
def fsErase (f : String → Option Bytes) (k : String) : String → Option Bytes :=
  fun x => if x = k then none else f x

/-- The two directories the upload handler touches: the chunk-scratch
directory `settings.TMP_DIR` and the final artifact directory
`settings.IMPORT_DIR/public`.  Files are keyed by their name inside the
directory. -/
structure FS where
  tmp : String → Option Bytes
  imp : String → Option Bytes

/-- A filesystem with no scratch files and no imported artifacts. -/
def FS.empty : FS := ⟨fun _ => none, fun _ => none⟩

/-- Python `str.lower()`, modelled character by character.  (`Char.toLower`
lowercases ASCII only, which covers the extension strings tested here.) -/
def strToLower (s : String) : String := ⟨s.data.map Char.toLower⟩

/-- Python `str.endswith(suffix)`: character-level suffix test. -/
def strEndsWith (s suffix : String) : Bool := suffix.data.isSuffixOf s.data

/-- Python slicing `s[:-n]`: drop the last `n` characters (all of them when
`n ≥ len(s)`). -/
def strDropRight (s : String) (n : Nat) : String := ⟨s.data.take (s.data.length - n)⟩

/-- `server.py` line 237: the accepted upload extensions, checked
case-insensitively on the destination name. -/
def allowed_file (name : String) : Bool :=
  strEndsWith (strToLower name) ".svs" || strEndsWith (strToLower name) ".tiff" ||
    strEndsWith (strToLower name) ".tif"

/-- The detail string of the 400 response for a bad extension
(`server.py` line 238). -/
def invalidTypeMsg : String :=
  "Invalid file type. Only .svs, .tiff, and .tif files are allowed."

/-- The scratch-file name for chunk `i` of upload `name`:
Python `f"{name}_{chunk_number}"` (`server.py` line 244). -/
def chunkKey (name : String) (i : Int) : String :=
  name ++ "_" ++ toString i

/-- The chunk indices consumed by the completion loop
(`server.py` lines 255-261: `chunk = 0; while chunk < total_chunks`). -/
def sessionIdxs (total_chunks : Int) : List Int :=
  (List.range total_chunks.toNat).map Int.ofNat

/-- The completion loop body (`server.py` lines 255-261): read the chunk
files in index order, appending each to the destination and deleting it
right after it is consumed.  Returns the bytes written to the destination
so far, the scratch directory after the deletions, and whether every read
succeeded.  A `false` flag models the `FileNotFoundError` Python raises
when a chunk file is missing: the bytes accumulated up to that point have
already been written to the destination and the missing chunk file is not
removed. -/
def consumeChunks (tmp : String → Option Bytes) (name : String) :
    List Int → Bytes × (String → Option Bytes) × Bool
  | [] => ([], tmp, true)
  | i :: rest =>
    match tmp (chunkKey name i) with
    | none => ([], tmp, false)
    | some b =>
      let r := consumeChunks (fsErase tmp (chunkKey name i)) name rest
      (b ++ r.1, r.2.1, r.2.2)

/-- Outcome of one `/upload` request. -/
inductive UploadResult where
  /-- `HTTPException` raised by the handler itself (the extension check). -/
  | rejected (statusCode : Nat) (detail : String)
  /-- An exception escaped the handler (missing chunk file during
  concatenation); the framework answers 500. -/
  | serverError (statusCode : Nat)
  /-- A `JSONResponse` with the given status code and `message` field. -/
  | ok (statusCode : Nat) (message : String)
deriving DecidableEq, Repr

/-- `upload_file` (`server.py` lines 220-268).  Rejects unsupported
extensions with 400 before touching the filesystem; otherwise persists the
chunk to the scratch file `chunkKey name chunk_number`, and when
`chunk_number + 1 == total_chunks` concatenates chunk files
`0 .. total_chunks - 1` in index order into the destination artifact
(keyed by `name` in the import directory), deleting each chunk file after
use. -/
def upload_file (fs : FS) (name : String) (chunk_number total_chunks : Int)
    (bytes : Bytes) : UploadResult × FS :=
  if allowed_file name = false then
    (.rejected 400 invalidTypeMsg, fs)
  else
    let isLast := chunk_number + 1 = total_chunks
    let tmp1 := fsWrite fs.tmp (chunkKey name chunk_number) bytes
    if isLast then
      let r := consumeChunks tmp1 name (sessionIdxs total_chunks)
      let fs2 : FS := { tmp := r.2.1, imp := fsWrite fs.imp name r.1 }
      if r.2.2 then (.ok 200 "File Uploaded", fs2)
      else (.serverError 500, fs2)
    else
      (.ok 200 "Chunk Uploaded", { fs with tmp := tmp1 })

/-!
### Tile address decoding (`get_tile`, `server.py` lines 158-198)
-/

/-- ASCII whitespace, as stripped by Python `int(x)` around the literal. -/
def pyWhitespace (c : Char) : Bool :=
  c = ' ' || c = '\t' || c = '\n' || c = '\r' || c = '\x0b' || c = '\x0c'

/-- Python `str.strip()` on a character list (ASCII whitespace). -/
def pyStrip (cs : List Char) : List Char :=
  ((cs.dropWhile pyWhitespace).reverse.dropWhile pyWhitespace).reverse

/-- Decimal value of a most-significant-first ASCII digit string. -/
def decVal (cs : List Char) : Nat :=
  cs.foldl (fun a c => a * 10 + (c.toNat - 48)) 0

/-- Model of Python's `int(x)` on a string: optional surrounding
whitespace, an optional single sign, then at least one ASCII digit.
Returns `none` where Python raises `ValueError`.  (Python additionally
accepts `_` digit grouping and non-ASCII decimal digits; those corner
forms are not modelled — every token appearing in the theorems below is
classified identically by both.) -/
def pyInt (s : String) : Option Int :=
  match pyStrip s.data with
  | '-' :: ds =>
    if ds.length > 0 && ds.all Char.isDigit then some (-(decVal ds : Int)) else none
  | '+' :: ds =>
    if ds.length > 0 && ds.all Char.isDigit then some (decVal ds) else none
  | ds =>
    if ds.length > 0 && ds.all Char.isDigit then some (decVal ds) else none

/-- Python `chs.split(';')`: split on each `;`, keeping empty pieces (and
producing one empty piece for the empty string, as Python does). -/
def splitSemiAux : List Char → List String
  | [] => [""]
  | c :: rest =>
    let r := splitSemiAux rest
    if c = ';' then "" :: r
    else
      match r with
      | [] => [String.mk [c]]
      | h :: t => String.mk (c :: h.data) :: t

/-- Python `s.split(';')` on a string. -/
def pySplitSemi (s : String) : List String := splitSemiAux s.data

/-- Python `[int(x) for x in tokens]`: all tokens parsed, or the
`ValueError` of the first bad token (`none`). -/
def mapPyInt : List String → Option (List Int)
  | [] => some []
  | x :: xs =>
    match pyInt x, mapPyInt xs with
    | some v, some vs => some (v :: vs)
    | _, _ => none

/-- Outcome of one tile request, after the URL parameters were decoded. -/
inductive TileResult where
  /-- An exception escaped the handler (the `ValueError` of a failed
  `int(x)`); the framework answers with this status code. -/
  | error (statusCode : Nat)
  /-- All lists decoded; the handler proceeds to call the Pyramid Reader
  with these channel indices, color names and gains. -/
  | composited (channels : List Int) (colors : List String) (gains : List Int)
deriving DecidableEq, Repr

/-- The decoding prefix of `get_tile` (`server.py` lines 177-181):
`chs.split(';')` mapped through `int`, `colors.split(';')`, and
`gains.split(';')` mapped through `int`.  A failed `int` raises out of the
handler and the framework answers 500. -/
def get_tile (chs colorsStr gainsStr : String) : TileResult :=
  match mapPyInt (pySplitSemi chs) with
  | none => .error 500
  | some channels =>
    let colorList := pySplitSemi colorsStr
    match mapPyInt (pySplitSemi gainsStr) with
    | none => .error 500
    | some gains => .composited channels colorList gains

/-!
### Catalog scan (`find_zarr_datasets` and `samples`, `server.py` lines 84-143)
-/

/-- Opaque metadata payload produced by the external Pyramid Reader. -/
abbrev Metadata := String

/-- Opaque JSON payload of a `sample.json` sidecar. -/
abbrev Details := String

/-- One entry of `os.scandir(base_dir)`. -/
structure DirEntry where
  name : String
  isDir : Bool
deriving DecidableEq, Repr

/-- One element of the list built by `find_zarr_datasets`.  The code
initializes `details` to `{}` and overwrites it with the parsed sidecar
when `sample.json` exists; `none` here models the `{}` default. -/
structure DatasetInfo where
  name : String
  details : Option Details
  metadata : Metadata
deriving DecidableEq, Repr

/-- `find_zarr_datasets` (`server.py` lines 84-121).  `connect` is the
external `OmeZarrConnector` keyed by the entry name: `none` means the
constructor raises, and the exception propagates out of the scan, which is
the `none` result.  `sidecar` reports the parsed `sample.json` of an
entry, or `none` when the file does not exist. -/
def find_zarr_datasets (connect : String → Option Metadata)
    (sidecar : String → Option Details) : List DirEntry → Option (List DatasetInfo)
  | [] => some []
  | e :: rest =>
    if e.isDir && strEndsWith e.name ".zarr" then
      match connect e.name with
      | none => none
      | some md =>
        match find_zarr_datasets connect sidecar rest with
        | none => none
        | some ds =>
          some ({ name := strDropRight e.name 5, details := sidecar e.name,
                  metadata := md } :: ds)
    else find_zarr_datasets connect sidecar rest

/-- The JSON answer of `GET /samples.json`. -/
structure SamplesResponse where
  samples : List DatasetInfo
  save : Bool
  colors : List String
  statusCode : Nat
deriving DecidableEq, Repr

/-- `samples` (`server.py` lines 123-143).  `dirEntries = none` models
`os.scandir` raising because the location directory does not exist; the
bare `except` turns any exception — a missing directory as well as a
failed dataset open inside `find_zarr_datasets` — into an empty list, and
the endpoint always answers 200. -/
def samples (connect : String → Option Metadata) (sidecar : String → Option Details)
    (dirEntries : Option (List DirEntry)) (saveFlag : Bool)
    (colorNames : List String) : SamplesResponse :=
  let file_json :=
    match dirEntries with
    | none => []
    | some es =>
      match find_zarr_datasets connect sidecar es with
      | none => []
      | some ds => ds
  { samples := file_json, save := saveFlag, colors := colorNames, statusCode := 200 }

/-!
### Sample listing (`sample_stats`, `server.py` lines 271-301)
-/

/-- Python `list.remove(x)`: delete the first occurrence of `x`. -/
def removeFirst (xs : List String) (x : String) : List String :=
  match xs with
  | [] => []
  | y :: ys => if y = x then ys else y :: removeFirst ys x

theorem removeFirst_length_le (xs : List String) (x : String) :
    (removeFirst xs x).length ≤ xs.length := by
  induction xs with
  | nil => simp [removeFirst]
  | cons y ys ih =>
    by_cases h : y = x
    · simp [removeFirst, h]
    · simp [removeFirst, h]
      omega

/-- The filtering loop of `sample_stats` (`server.py` lines 288-291):
Python's `for folder in folders` iterates by position while
`folders.remove(folder)` mutates the same list, so removing an element
makes the loop skip the element that slid into its position.  `i` is the
loop's internal index. -/
def sampleFilterLoop (hasSidecar : String → Bool) (folders : List String)
    (i : Nat) : List String :=
  if h : i < folders.length then
    let folder := folders[i]
    if hasSidecar folder then sampleFilterLoop hasSidecar folders (i + 1)
    else sampleFilterLoop hasSidecar (removeFirst folders folder) (i + 1)
  else folders
termination_by folders.length - i
decreasing_by
  · omega
  · have := removeFirst_length_le folders folders[i]
    omega

/-- Python `round(x, 2)` on the gigabyte figure, modelled on rationals
(half-up instead of the float's round-half-even; no claim depends on the
value). -/
def round2 (x : ℚ) : ℚ := (round (x * 100) : ℤ) / 100

/-- The JSON answer of `POST /sampleStats`. -/
structure StatsResponse where
  samples : List String
  dataUsed : ℚ
  statusCode : Nat
deriving DecidableEq, Repr

/-- `sample_stats` (`server.py` lines 271-301).  `dirExists` models
`os.path.exists` on `SLIDE_DIR/public`; `folders` is the `os.listdir`
result already filtered to directories; `hasSidecar` reports whether a
folder contains `sample.json`; `duBlocks` is the 512-byte block count
printed by the external `du -s`. -/
def sample_stats (dirExists : Bool) (folders : List String)
    (hasSidecar : String → Bool) (duBlocks : Nat) : StatsResponse :=
  if dirExists = false then
    { samples := [], dataUsed := 0, statusCode := 200 }
  else
    { samples := sampleFilterLoop hasSidecar folders 0
      dataUsed := round2 ((duBlocks * 512 : ℚ) / 1024 ^ 3)
      statusCode := 200 }

/-!
### Sample deletion (`delete_sample`, `server.py` lines 306-324)
-/

/-- The JSON answer of `POST /deleteSample`, together with whether the
external recursive-delete utility (`rm -rf`) was invoked on the resolved
path. -/
structure DeleteOutcome where
  statusCode : Nat
  message : String
  removed : Bool
deriving DecidableEq, Repr

/-- `delete_sample` (`server.py` lines 306-324).  `pathExists` models
`os.path.exists` on `SLIDE_DIR/<sample>`. -/
def delete_sample (pathExists : String → Bool) (sample : String) : DeleteOutcome :=
  if pathExists sample = false then
    { statusCode := 404, message := "Sample not found", removed := false }
  else
    { statusCode := 200, message := "Samples deleted", removed := true }

/-!
### Settings save (`save_slide_settings`, `server.py` lines 200-218)
-/

/-- Opaque JSON body of a save request. -/
abbrev JsonData := String

/-- Outcome of one `POST /save/{path}` request. -/
inductive SaveResult where
  /-- Save mode disabled: plain-text response with this status and body. -/
  | blocked (statusCode : Nat) (body : String)
  /-- `HTTPException` for a body that is not valid JSON. -/
  | invalidJson (statusCode : Nat)
  /-- Plain-text success response. -/
  | ok (body : String)
deriving DecidableEq, Repr

/-- `save_slide_settings` (`server.py` lines 200-218).  `body` is the
result of `request.json()`: `.error` when decoding raises.  The second
component is the `sample.json` write performed, `none` when no file was
written. -/
def save_slide_settings (saveFlag : Bool) (file : String)
    (body : Except Unit JsonData) : SaveResult × Option (String × JsonData) :=
  if saveFlag then
    match body with
    | .error _ => (.invalidJson 400, none)
    | .ok d => (.ok "OK", some (file, d))
  else
    (.blocked 403 "SAVE BLOCKED", none)

/-!
### Helper lemmas: decimal representations and scratch-file keys

The scratch files of an upload session are keyed by the formatted string
`name ++ "_" ++ toString i`.  The completion loop deletes each chunk file
after reading it, so its correctness rests on the keys of distinct indices
being distinct strings; this section proves the decimal representation
used by `toString` injective.
-/

/-- The decimal digits of `n`, most significant first; reference
formulation of `Nat.toDigits 10 n` by strong recursion instead of fuel. -/
def digitsOf (n : Nat) : List Char :=
  if n < 10 then [Nat.digitChar n]
  else digitsOf (n / 10) ++ [Nat.digitChar (n % 10)]
termination_by n
decreasing_by
  exact Nat.div_lt_self (by omega) (by omega)

theorem toDigitsCore_eq_digitsOf :
    ∀ (fuel n : Nat) (acc : List Char), n < fuel →
      Nat.toDigitsCore 10 fuel n acc = digitsOf n ++ acc := by
  intro fuel
  induction fuel with
  | zero => intro n acc h; omega
  | succ fuel ih =>
    intro n acc h
    rw [Nat.toDigitsCore]
    by_cases hz : n / 10 = 0
    · have hn : n < 10 := (Nat.div_eq_zero_iff (by omega)).mp hz
      rw [digitsOf]
      simp [hz, hn, Nat.mod_eq_of_lt hn]
    · have hn : ¬ n < 10 := by
        intro hlt
        exact hz ((Nat.div_eq_zero_iff (by omega)).mpr hlt)
      have hlt : n / 10 < fuel := by
        have : n / 10 < n := Nat.div_lt_self (by omega) (by omega)
        omega
      rw [digitsOf]
      simp only [hz, hn, if_false]
      rw [ih (n / 10) (Nat.digitChar (n % 10) :: acc) hlt]
      simp

theorem toDigits_eq_digitsOf (n : Nat) : Nat.toDigits 10 n = digitsOf n := by
  have := toDigitsCore_eq_digitsOf (n + 1) n [] (by omega)
  simpa [Nat.toDigits] using this

theorem decVal_append_singleton (cs : List Char) (c : Char) :
    decVal (cs ++ [c]) = decVal cs * 10 + (c.toNat - 48) := by
  simp [decVal, List.foldl_append]

theorem digitChar_val {d : Nat} (h : d < 10) : (Nat.digitChar d).toNat - 48 = d := by
  interval_cases d <;> decide

theorem decVal_digitsOf (n : Nat) : decVal (digitsOf n) = n := by
  induction n using Nat.strong_induction_on with
  | _ n ih =>
    rw [digitsOf]
    by_cases h : n < 10
    · simp [h, decVal, digitChar_val h]
    · have hdiv : n / 10 < n := Nat.div_lt_self (by omega) (by omega)
      simp only [h, if_false]
      rw [decVal_append_singleton, ih (n / 10) hdiv,
        digitChar_val (Nat.mod_lt n (by omega))]
      omega

theorem natRepr_inj {m n : Nat} (h : Nat.repr m = Nat.repr n) : m = n := by
  have hd : Nat.toDigits 10 m = Nat.toDigits 10 n := by
    have := congrArg String.data h
    simpa [Nat.repr, List.asString] using this
  rw [toDigits_eq_digitsOf, toDigits_eq_digitsOf] at hd
  calc m = decVal (digitsOf m) := (decVal_digitsOf m).symm
    _ = decVal (digitsOf n) := by rw [hd]
    _ = n := decVal_digitsOf n

theorem string_append_left_cancel {a s t : String} (h : a ++ s = a ++ t) : s = t := by
  have hd := congrArg String.data h
  simp only [String.data_append] at hd
  exact String.ext (List.append_cancel_left hd)

theorem chunkKey_inj_of_toString (name : String) {i j : Int}
    (h : chunkKey name i = chunkKey name j) : toString i = toString j := by
  have : (name ++ "_") ++ toString i = (name ++ "_") ++ toString j := by
    simpa [chunkKey, String.append_assoc] using h
  exact string_append_left_cancel this

theorem chunkKey_ne (name : String) {i j : Int} (h : toString i ≠ toString j) :
    chunkKey name i ≠ chunkKey name j :=
  fun he => h (chunkKey_inj_of_toString name he)

theorem toString_intOfNat (m : Nat) : toString (Int.ofNat m) = Nat.repr m := rfl

theorem chunkKey_natCast_inj (name : String) :
    Function.Injective (fun m : Nat => chunkKey name (Int.ofNat m)) := by
  intro m n h
  have := chunkKey_inj_of_toString name h
  rw [toString_intOfNat, toString_intOfNat] at this
  exact natRepr_inj this

theorem sessionIdxs_keys_nodup (name : String) (tc : Int) :
    ((sessionIdxs tc).map (chunkKey name)).Nodup := by
  rw [sessionIdxs, List.map_map]
  apply List.Nodup.map ?_ (List.nodup_range _)
  intro a b hab
  exact chunkKey_natCast_inj name hab

/-!
### Helper lemmas: the scratch-directory map and the completion loop
-/

@[simp] theorem fsWrite_same (f : String → Option Bytes) (k : String) (v : Bytes) :
    fsWrite f k v k = some v := by simp [fsWrite]

theorem fsWrite_ne (f : String → Option Bytes) (k : String) (v : Bytes) {x : String}
    (h : x ≠ k) : fsWrite f k v x = f x := by simp [fsWrite, h]

@[simp] theorem fsErase_same (f : String → Option Bytes) (k : String) :
    fsErase f k k = none := by simp [fsErase]

theorem fsErase_ne (f : String → Option Bytes) (k : String) {x : String}
    (h : x ≠ k) : fsErase f k x = f x := by simp [fsErase, h]

/-- If some chunk file of the list is absent, the completion loop fails
(the `FileNotFoundError` path): chunk files are only ever deleted, never
created, while the loop runs. -/
theorem consumeChunks_missing (name : String) :
    ∀ (l : List Int) (tmp : String → Option Bytes),
      (∃ i ∈ l, tmp (chunkKey name i) = none) →
      (consumeChunks tmp name l).2.2 = false := by
  intro l
  induction l with
  | nil =>
    rintro tmp ⟨i, hi, _⟩
    simp at hi
  | cons j rest ih =>
    rintro tmp ⟨i, hi, hnone⟩
    rcases List.mem_cons.mp hi with rfl | hmem
    · simp [consumeChunks, hnone]
    · cases hj : tmp (chunkKey name j) with
      | none => simp [consumeChunks, hj]
      | some b =>
        have herase : fsErase tmp (chunkKey name j) (chunkKey name i) = none := by
          by_cases hk : chunkKey name i = chunkKey name j
          · simp [fsErase, hk]
          · rw [fsErase_ne _ _ hk]; exact hnone
        simp only [consumeChunks, hj]
        exact ih _ ⟨i, hmem, herase⟩

/-- If every chunk file of the list is present and the keys are distinct,
the completion loop succeeds, the destination receives the chunk contents
concatenated in list order, and exactly the listed chunk files are removed
from the scratch directory. -/
theorem consumeChunks_complete (name : String) :
    ∀ (l : List Int) (tmp : String → Option Bytes),
      (l.map (chunkKey name)).Nodup →
      (∀ i ∈ l, tmp (chunkKey name i) ≠ none) →
      (consumeChunks tmp name l).2.2 = true ∧
      (consumeChunks tmp name l).1
        = (l.map (fun i => (tmp (chunkKey name i)).getD [])).flatten ∧
      ∀ k, (consumeChunks tmp name l).2.1 k
        = if k ∈ l.map (chunkKey name) then none else tmp k := by
  intro l
  induction l with
  | nil =>
    intro tmp _ _
    refine ⟨rfl, rfl, fun k => ?_⟩
    simp [consumeChunks]
  | cons j rest ih =>
    intro tmp hnd hall
    obtain ⟨b, hb⟩ : ∃ b, tmp (chunkKey name j) = some b := by
      cases h : tmp (chunkKey name j) with
      | none => exact absurd h (hall j (by simp))
      | some b => exact ⟨b, rfl⟩
    rw [List.map_cons, List.nodup_cons] at hnd
    have hallr : ∀ i ∈ rest, fsErase tmp (chunkKey name j) (chunkKey name i) ≠ none := by
      intro i hi
      have hne : chunkKey name i ≠ chunkKey name j := by
        intro he
        exact hnd.1 (he ▸ List.mem_map_of_mem (chunkKey name) hi)
      rw [fsErase_ne _ _ hne]
      exact hall i (List.mem_cons_of_mem _ hi)
    obtain ⟨ihf, ihc, ihm⟩ := ih (fsErase tmp (chunkKey name j)) hnd.2 hallr
    have hmapeq :
        rest.map (fun i => (fsErase tmp (chunkKey name j) (chunkKey name i)).getD [])
          = rest.map (fun i => (tmp (chunkKey name i)).getD []) := by
      apply List.map_congr_left
      intro i hi
      have hne : chunkKey name i ≠ chunkKey name j := by
        intro he
        exact hnd.1 (he ▸ List.mem_map_of_mem (chunkKey name) hi)
      rw [fsErase_ne _ _ hne]
    refine ⟨?_, ?_, ?_⟩
    · simp [consumeChunks, hb, ihf]
    · simp only [consumeChunks, hb, ihc, hmapeq, List.map_cons, List.flatten_cons, hb]
      simp [hb]
    · intro k
      simp only [consumeChunks, hb]
      rw [ihm k]
      by_cases h1 : k ∈ rest.map (chunkKey name)
      · simp [h1]
      · by_cases h2 : k = chunkKey name j
        · simp [h1, h2]
        · simp [h1, h2, fsErase_ne _ _ h2]

/-- An accepted non-final chunk is persisted to its scratch file and
answered with `Chunk Uploaded`; nothing else changes. -/
theorem upload_step_notlast (fs : FS) (name : String) (cn tc : Int) (b : Bytes)
    (hext : allowed_file name = true) (hlast : ¬ cn + 1 = tc) :
    upload_file fs name cn tc b
      = (.ok 200 "Chunk Uploaded", ⟨fsWrite fs.tmp (chunkKey name cn) b, fs.imp⟩) := by
  simp [upload_file, hext, hlast]

/-- An accepted final chunk whose completion loop succeeds yields
`File Uploaded`, the concatenated artifact, and the post-loop scratch
directory. -/
theorem upload_step_last (fs : FS) (name : String) (cn tc : Int) (b : Bytes)
    (hext : allowed_file name = true) (hlast : cn + 1 = tc)
    (hflag : (consumeChunks (fsWrite fs.tmp (chunkKey name cn) b) name (sessionIdxs tc)).2.2
      = true) :
    upload_file fs name cn tc b
      = (.ok 200 "File Uploaded",
         ⟨(consumeChunks (fsWrite fs.tmp (chunkKey name cn) b) name (sessionIdxs tc)).2.1,
          fsWrite fs.imp name
            (consumeChunks (fsWrite fs.tmp (chunkKey name cn) b) name (sessionIdxs tc)).1⟩) := by
  simp [upload_file, hext, hlast, hflag]

/-- An accepted final chunk whose completion loop hits a missing chunk
file makes the request fail with a 500. -/
theorem upload_step_last_fail (fs : FS) (name : String) (cn tc : Int) (b : Bytes)
    (hext : allowed_file name = true) (hlast : cn + 1 = tc)
    (hflag : (consumeChunks (fsWrite fs.tmp (chunkKey name cn) b) name (sessionIdxs tc)).2.2
      = false) :
    (upload_file fs name cn tc b).1 = .serverError 500 := by
  simp [upload_file, hext, hlast, hflag]

/-!
### Claim theorems
-/

/-- C1: for every upload session with `totalChunks = 3` whose chunks
arrive in index order 0, 1, 2, `/upload` answers the third request with
`File Uploaded`, the final artifact under the import root is the
concatenation of the three chunk payloads in index order, and no
chunk-scratch file of the session remains in the scratch directory. -/
theorem upload_three_chunks_in_order (fs : FS) (name : String) (b0 b1 b2 : Bytes)
    (hext : allowed_file name = true) :
    (upload_file (upload_file (upload_file fs name 0 3 b0).2 name 1 3 b1).2 name 2 3 b2).1
      = .ok 200 "File Uploaded" ∧
    (upload_file (upload_file (upload_file fs name 0 3 b0).2 name 1 3 b1).2 name 2 3 b2).2.imp
      name = some (b0 ++ b1 ++ b2) ∧
    ∀ i ∈ sessionIdxs 3,
      (upload_file (upload_file (upload_file fs name 0 3 b0).2 name 1 3 b1).2 name 2 3 b2).2.tmp
        (chunkKey name i) = none := by
  rw [upload_step_notlast fs name 0 3 b0 hext (by decide)]
  rw [upload_step_notlast _ name 1 3 b1 hext (by decide)]
  have h01 : chunkKey name 0 ≠ chunkKey name 1 := chunkKey_ne name (by decide)
  have h02 : chunkKey name 0 ≠ chunkKey name 2 := chunkKey_ne name (by decide)
  have h12 : chunkKey name 1 ≠ chunkKey name 2 := chunkKey_ne name (by decide)
  have hidx : sessionIdxs 3 = [0, 1, 2] := by decide
  have hall : ∀ i ∈ sessionIdxs 3,
      fsWrite (fsWrite (fsWrite fs.tmp (chunkKey name 0) b0) (chunkKey name 1) b1)
        (chunkKey name 2) b2 (chunkKey name i) ≠ none := by
    intro i hi
    rw [hidx] at hi
    simp only [List.mem_cons, List.not_mem_nil, or_false] at hi
    rcases hi with rfl | rfl | rfl
    · simp [fsWrite_ne _ _ _ h02, fsWrite_ne _ _ _ h01]
    · simp [fsWrite_ne _ _ _ h12]
    · simp
  obtain ⟨hf, hc, hm⟩ :=
    consumeChunks_complete name (sessionIdxs 3) _ (sessionIdxs_keys_nodup name 3) hall
  rw [upload_step_last _ name 2 3 b2 hext (by decide) hf]
  refine ⟨rfl, ?_, ?_⟩
  · dsimp only
    rw [fsWrite_same, hc, hidx]
    simp [fsWrite_ne _ _ _ h02, fsWrite_ne _ _ _ h01, fsWrite_ne _ _ _ h12,
      List.append_assoc]
  · intro i hi
    dsimp only
    rw [hm (chunkKey name i)]
    simp [List.mem_map_of_mem (chunkKey name) hi]

/-- C1 witness: a concrete three-chunk session, in order, on an empty
filesystem. -/
theorem upload_three_chunks_in_order_witness :
    (upload_file (upload_file (upload_file FS.empty "a.svs" 0 3 [1]).2 "a.svs" 1 3 [2, 3]).2
        "a.svs" 2 3 [4]).1 = .ok 200 "File Uploaded" ∧
    (upload_file (upload_file (upload_file FS.empty "a.svs" 0 3 [1]).2 "a.svs" 1 3 [2, 3]).2
        "a.svs" 2 3 [4]).2.imp "a.svs" = some [1, 2, 3, 4] ∧
    (upload_file (upload_file (upload_file FS.empty "a.svs" 0 3 [1]).2 "a.svs" 1 3 [2, 3]).2
        "a.svs" 2 3 [4]).2.tmp (chunkKey "a.svs" 0) = none := by
  have h := upload_three_chunks_in_order FS.empty "a.svs" [1] [2, 3] [4] (by decide)
  exact ⟨h.1, h.2.1, h.2.2 0 (by decide)⟩

/-- C3 counterexample: the last-indexed chunk of a two-chunk session
arrives first; the completion step runs, hits the missing chunk file 0 and
the request fails with a 500 — not the `File Uploaded` success the claim
states for every completion run. -/
theorem upload_last_chunk_out_of_order_cex :
    (upload_file FS.empty "a.svs" 1 2 [7]).1 = .serverError 500 ∧
    UploadResult.serverError 500 ≠ .ok 200 "File Uploaded" := by decide

/-- C3 (amended): for every accepted chunk arrival, the completion step
runs if and only if `chunkNumber + 1 = totalChunks`, regardless of which
other chunks have arrived — the response is `Chunk Uploaded` exactly when
the arrival is not last-indexed; when it is last-indexed, the response is
`File Uploaded` (success) exactly when every session chunk file is present
after the arriving chunk is persisted, and a 500 failure exactly when some
session chunk file is missing. -/
theorem upload_completion_trigger (fs : FS) (name : String) (cn tc : Int) (b : Bytes)
    (hext : allowed_file name = true) :
    ((upload_file fs name cn tc b).1 = .ok 200 "Chunk Uploaded" ↔ cn + 1 ≠ tc) ∧
    (cn + 1 = tc →
      (((upload_file fs name cn tc b).1 = .ok 200 "File Uploaded") ↔
        ∀ i ∈ sessionIdxs tc,
          fsWrite fs.tmp (chunkKey name cn) b (chunkKey name i) ≠ none) ∧
      (((upload_file fs name cn tc b).1 = .serverError 500) ↔
        ∃ i ∈ sessionIdxs tc,
          fsWrite fs.tmp (chunkKey name cn) b (chunkKey name i) = none)) := by
  by_cases hlast : cn + 1 = tc
  · refine ⟨?_, fun _ => ?_⟩
    · apply iff_of_false ?_ (by simpa using hlast)
      intro hcontra
      cases hflag : (consumeChunks (fsWrite fs.tmp (chunkKey name cn) b) name
          (sessionIdxs tc)).2.2
      · rw [upload_step_last_fail fs name cn tc b hext hlast hflag] at hcontra
        simp at hcontra
      · rw [upload_step_last fs name cn tc b hext hlast hflag] at hcontra
        simp at hcontra
    · by_cases hall : ∀ i ∈ sessionIdxs tc,
          fsWrite fs.tmp (chunkKey name cn) b (chunkKey name i) ≠ none
      · obtain ⟨hf, _, _⟩ := consumeChunks_complete name (sessionIdxs tc) _
          (sessionIdxs_keys_nodup name tc) hall
        rw [upload_step_last fs name cn tc b hext hlast hf]
        constructor
        · exact iff_of_true rfl hall
        · apply iff_of_false (by simp)
          rintro ⟨i, hi, hn⟩
          exact absurd hn (hall i hi)
      · push_neg at hall
        have hflag := consumeChunks_missing name (sessionIdxs tc) _ hall
        rw [upload_step_last_fail fs name cn tc b hext hlast hflag]
        constructor
        · apply iff_of_false (by simp)
          intro h
          obtain ⟨i, hi, hn⟩ := hall
          exact absurd hn (by simpa using h i hi)
        · exact iff_of_true rfl hall
  · rw [upload_step_notlast fs name cn tc b hext hlast]
    exact ⟨iff_of_true rfl hlast, fun h => absurd h hlast⟩

/-- C3 witness: a one-chunk session whose single chunk is last-indexed and
present, so the completion step runs and answers `File Uploaded`. -/
theorem upload_completion_trigger_witness :
    (upload_file FS.empty "a.svs" 0 1 [7]).1 = .ok 200 "File Uploaded" :=
  ((upload_completion_trigger FS.empty "a.svs" 0 1 [7] (by decide)).2 rfl).1.mpr (by decide)

/-- C6: re-delivering chunk index 1 with different bytes before the
session completes overwrites the earlier scratch write, and the final
artifact contains only the latest bytes delivered for index 1. -/
theorem upload_redelivery_overwrites (fs : FS) (name : String) (b0 b1 b1' b2 : Bytes)
    (hext : allowed_file name = true) :
    (upload_file (upload_file (upload_file fs name 0 3 b0).2 name 1 3 b1).2
        name 1 3 b1').2.tmp (chunkKey name 1) = some b1' ∧
    (upload_file (upload_file (upload_file (upload_file fs name 0 3 b0).2 name 1 3 b1).2
        name 1 3 b1').2 name 2 3 b2).1 = .ok 200 "File Uploaded" ∧
    (upload_file (upload_file (upload_file (upload_file fs name 0 3 b0).2 name 1 3 b1).2
        name 1 3 b1').2 name 2 3 b2).2.imp name = some (b0 ++ b1' ++ b2) := by
  rw [upload_step_notlast fs name 0 3 b0 hext (by decide)]
  rw [upload_step_notlast _ name 1 3 b1 hext (by decide)]
  rw [upload_step_notlast _ name 1 3 b1' hext (by decide)]
  have h01 : chunkKey name 0 ≠ chunkKey name 1 := chunkKey_ne name (by decide)
  have h02 : chunkKey name 0 ≠ chunkKey name 2 := chunkKey_ne name (by decide)
  have h12 : chunkKey name 1 ≠ chunkKey name 2 := chunkKey_ne name (by decide)
  have hidx : sessionIdxs 3 = [0, 1, 2] := by decide
  have hall : ∀ i ∈ sessionIdxs 3,
      fsWrite (fsWrite (fsWrite (fsWrite fs.tmp (chunkKey name 0) b0) (chunkKey name 1) b1)
        (chunkKey name 1) b1') (chunkKey name 2) b2 (chunkKey name i) ≠ none := by
    intro i hi
    rw [hidx] at hi
    simp only [List.mem_cons, List.not_mem_nil, or_false] at hi
    rcases hi with rfl | rfl | rfl
    · simp [fsWrite_ne _ _ _ h02, fsWrite_ne _ _ _ h01]
    · simp [fsWrite_ne _ _ _ h12]
    · simp
  obtain ⟨hf, hc, hm⟩ :=
    consumeChunks_complete name (sessionIdxs 3) _ (sessionIdxs_keys_nodup name 3) hall
  rw [upload_step_last _ name 2 3 b2 hext (by decide) hf]
  refine ⟨by dsimp only; rw [fsWrite_same], rfl, ?_⟩
  dsimp only
  rw [fsWrite_same, hc, hidx]
  simp [fsWrite_ne _ _ _ h02, fsWrite_ne _ _ _ h01, fsWrite_ne _ _ _ h12,
    List.append_assoc]

/-- C6 witness: a concrete session where index 1 is delivered twice with
different bytes before the final chunk. -/
theorem upload_redelivery_overwrites_witness :
    (upload_file (upload_file (upload_file (upload_file FS.empty "a.svs" 0 3 [1]).2
        "a.svs" 1 3 [2]).2 "a.svs" 1 3 [9]).2 "a.svs" 2 3 [4]).1 = .ok 200 "File Uploaded" ∧
    (upload_file (upload_file (upload_file (upload_file FS.empty "a.svs" 0 3 [1]).2
        "a.svs" 1 3 [2]).2 "a.svs" 1 3 [9]).2 "a.svs" 2 3 [4]).2.imp "a.svs"
      = some [1, 9, 4] := by
  have h := upload_redelivery_overwrites FS.empty "a.svs" [1] [2] [9] [4] (by decide)
  exact ⟨h.2.1, h.2.2⟩

/-- C7: `/upload` rejects with the 400 invalid-file-type error exactly
when the destination name's extension is not an accepted slide format
(case-insensitively `.svs`, `.tiff` or `.tif`), and a rejected request
leaves the filesystem unchanged. -/
theorem upload_reject_iff (fs : FS) (name : String) (cn tc : Int) (b : Bytes) :
    ((upload_file fs name cn tc b).1 = .rejected 400 invalidTypeMsg ↔
      allowed_file name = false) ∧
    (allowed_file name = false → (upload_file fs name cn tc b).2 = fs) := by
  by_cases h : allowed_file name = false
  · exact ⟨iff_of_true (by simp [upload_file, h]) h, fun _ => by simp [upload_file, h]⟩
  · have hext : allowed_file name = true := by
      cases hb : allowed_file name
      · exact absurd hb h
      · rfl
    refine ⟨iff_of_false ?_ h, fun hf => absurd hf h⟩
    intro hcontra
    by_cases hlast : cn + 1 = tc
    · cases hflag : (consumeChunks (fsWrite fs.tmp (chunkKey name cn) b) name
          (sessionIdxs tc)).2.2
      · rw [upload_step_last_fail fs name cn tc b hext hlast hflag] at hcontra
        simp at hcontra
      · rw [upload_step_last fs name cn tc b hext hlast hflag] at hcontra
        simp at hcontra
    · rw [upload_step_notlast fs name cn tc b hext hlast] at hcontra
      simp at hcontra

/-- C7 witness: a `.txt` upload is rejected with the 400 error and the
filesystem is untouched; conversely the accepted `.svs` name is not
rejected. -/
theorem upload_reject_iff_witness :
    (upload_file FS.empty "f.txt" 0 1 [1]).1 = .rejected 400 invalidTypeMsg ∧
    (upload_file FS.empty "f.txt" 0 1 [1]).2 = FS.empty :=
  ⟨(upload_reject_iff FS.empty "f.txt" 0 1 [1]).1.mpr (by decide),
   (upload_reject_iff FS.empty "f.txt" 0 1 [1]).2 (by decide)⟩

/-- A `[int(x) for x in tokens]` comprehension raises exactly when some
token fails to parse. -/
theorem mapPyInt_eq_none_iff :
    ∀ l : List String, mapPyInt l = none ↔ ∃ t ∈ l, pyInt t = none := by
  intro l
  induction l with
  | nil => simp [mapPyInt]
  | cons x xs ih =>
    cases hx : pyInt x with
    | none => simp [mapPyInt, hx]
    | some v =>
      cases hxs : mapPyInt xs with
      | none =>
        simp only [mapPyInt, hx, hxs]
        exact iff_of_true trivial (by
          obtain ⟨t, ht, hn⟩ := ih.mp hxs
          exact ⟨t, List.mem_cons_of_mem _ ht, hn⟩)
      | some vs =>
        simp only [mapPyInt, hx, hxs]
        apply iff_of_false (by simp)
        rintro ⟨t, ht, hnone⟩
        rcases List.mem_cons.mp ht with rfl | hmem
        · exact absurd hnone (by simp [hx])
        · exact absurd hxs (by simp [ih.mpr ⟨t, hmem, hnone⟩])

/-- C4 counterexample: at a request whose gain list is the non-numeric
token `abc`, the tile operation fails with a 500 — which is not a
4xx-class response as the claim states. -/
theorem get_tile_cex :
    pyInt "abc" = none ∧ get_tile "0" "red" "abc" = .error 500 ∧
    ¬ (400 ≤ 500 ∧ 500 < 500) := by decide

/-- C4 (amended): a tile request whose gain list or channel list contains
a non-numeric token fails — the `ValueError` of `int(x)` escapes the
handler and the framework answers 500, a 5xx-class internal error rather
than a 4xx `MalformedParameter`; there is no silent default, since the
tile is composited exactly when every token parses. -/
theorem get_tile_nonnumeric (chs colorsStr gainsStr : String) :
    get_tile chs colorsStr gainsStr = .error 500 ↔
      (∃ t ∈ pySplitSemi chs, pyInt t = none) ∨
      (∃ t ∈ pySplitSemi gainsStr, pyInt t = none) := by
  unfold get_tile
  cases h1 : mapPyInt (pySplitSemi chs) with
  | none =>
    exact iff_of_true rfl (Or.inl ((mapPyInt_eq_none_iff _).mp h1))
  | some cList =>
    cases h2 : mapPyInt (pySplitSemi gainsStr) with
    | none =>
      exact iff_of_true rfl (Or.inr ((mapPyInt_eq_none_iff _).mp h2))
    | some gList =>
      apply iff_of_false (by simp)
      rintro (⟨t, ht, hnone⟩ | ⟨t, ht, hnone⟩)
      · exact absurd h1 (by simp [(mapPyInt_eq_none_iff _).mpr ⟨t, ht, hnone⟩])
      · exact absurd h2 (by simp [(mapPyInt_eq_none_iff _).mpr ⟨t, ht, hnone⟩])

/-- A dataset entry whose Pyramid Reader open fails aborts the whole scan:
the exception propagates out of `find_zarr_datasets`. -/
theorem find_zarr_datasets_abort (connect : String → Option Metadata)
    (sidecar : String → Option Details) :
    ∀ (entries : List DirEntry) (e : DirEntry), e ∈ entries → e.isDir = true →
      strEndsWith e.name ".zarr" = true → connect e.name = none →
      find_zarr_datasets connect sidecar entries = none := by
  intro entries
  induction entries with
  | nil => intro e he; simp at he
  | cons a rest ih =>
    intro e he hdir hz hfail
    rcases List.mem_cons.mp he with rfl | hmem
    · simp [find_zarr_datasets, hdir, hz, hfail]
    · by_cases hsel : a.isDir && strEndsWith a.name ".zarr"
      · cases hc : connect a.name with
        | none => simp [find_zarr_datasets, hsel, hc]
        | some md =>
          simp [find_zarr_datasets, hsel, hc, ih e hmem hdir hz hfail]
      · simp [find_zarr_datasets, hsel, ih e hmem hdir hz hfail]

/-- C2 (amended): when the Pyramid Reader open of any selected dataset
subdirectory fails, the scan is aborted — `find_zarr_datasets` raises —
and the catalog endpoint catches the exception and returns a 200 response
with an empty samples list, so the sibling datasets are not returned. -/
theorem samples_failure_isolation_violated (connect : String → Option Metadata)
    (sidecar : String → Option Details) (entries : List DirEntry)
    (saveFlag : Bool) (colorNames : List String) (e : DirEntry)
    (he : e ∈ entries) (hdir : e.isDir = true)
    (hz : strEndsWith e.name ".zarr" = true) (hfail : connect e.name = none) :
    find_zarr_datasets connect sidecar entries = none ∧
    (samples connect sidecar (some entries) saveFlag colorNames).samples = [] ∧
    (samples connect sidecar (some entries) saveFlag colorNames).statusCode = 200 := by
  have hnone := find_zarr_datasets_abort connect sidecar entries e he hdir hz hfail
  exact ⟨hnone, by simp [samples, hnone], rfl⟩

/-- A connector oracle that fails on `A.zarr` and succeeds on `B.zarr`. -/
def cexConnect : String → Option Metadata :=
  fun p => if p = "B.zarr" then some "mdB" else none

/-- C2 counterexample: with two sibling dataset directories where only the
open of `A.zarr` fails, the endpoint returns an empty samples list — the
healthy sibling `B.zarr` is not returned, contradicting the claim. -/
theorem samples_sibling_lost_cex :
    cexConnect "B.zarr" = some "mdB" ∧
    (samples cexConnect (fun _ => none)
        (some [⟨"A.zarr", true⟩, ⟨"B.zarr", true⟩]) false []).samples = [] := by decide

/-- C2 witness: a single failing dataset directory. -/
theorem samples_failure_isolation_witness :
    find_zarr_datasets (fun _ => none) (fun _ => none) [⟨"A.zarr", true⟩] = none ∧
    (samples (fun _ => none) (fun _ => none) (some [⟨"A.zarr", true⟩]) false []).samples
      = [] ∧
    (samples (fun _ => none) (fun _ => none) (some [⟨"A.zarr", true⟩]) false []).statusCode
      = 200 :=
  samples_failure_isolation_violated (fun _ => none) (fun _ => none) [⟨"A.zarr", true⟩]
    false [] ⟨"A.zarr", true⟩ (by decide) rfl (by decide) rfl

/-- C8: when the location's backing directory does not exist (`os.scandir`
raises) or the scan itself fails, the catalog endpoint still answers 200
with an empty samples list, never an error. -/
theorem samples_missing_dir_ok (connect : String → Option Metadata)
    (sidecar : String → Option Details) (dirEntries : Option (List DirEntry))
    (saveFlag : Bool) (colorNames : List String)
    (h : dirEntries = none ∨
      ∃ es, dirEntries = some es ∧ find_zarr_datasets connect sidecar es = none) :
    (samples connect sidecar dirEntries saveFlag colorNames).samples = [] ∧
    (samples connect sidecar dirEntries saveFlag colorNames).statusCode = 200 := by
  rcases h with rfl | ⟨es, rfl, hscan⟩
  · exact ⟨rfl, rfl⟩
  · exact ⟨by simp [samples, hscan], rfl⟩

/-- C8 witness: the backing directory is missing. -/
theorem samples_missing_dir_ok_witness :
    (samples (fun _ => none) (fun _ => none) none false []).samples = [] ∧
    (samples (fun _ => none) (fun _ => none) none false []).statusCode = 200 :=
  samples_missing_dir_ok (fun _ => none) (fun _ => none) none false [] (Or.inl rfl)

/-- C5: at the failing input — two subdirectories `a` and `b`, neither
containing `sample.json` — the sample-listing operation returns `["b"]`:
removing `a` in place makes the loop skip `b`, so a subdirectory lacking
the sidecar is returned, contradicting the claim (and the spec's stated
intent of exact filtering, which the spec itself flags in §9 as the
filter-while-iterating bug of the source). -/
theorem sample_stats_keeps_invalid :
    (sample_stats true ["a", "b"] (fun _ => false) 0).samples = ["b"] ∧
    (fun _ : String => false) "b" = false := by
  constructor
  · show (sampleFilterLoop (fun _ => false) ["a", "b"] 0) = ["b"]
    rw [sampleFilterLoop]
    norm_num [removeFirst]
    rw [sampleFilterLoop]
    norm_num
  · rfl

/-- C9: deleting a sample whose resolved path does not exist answers 404
`Sample not found` and does not invoke the recursive delete; the delete
utility runs only when the path exists. -/
theorem delete_sample_notfound (pathExists : String → Bool) (sample : String) :
    (pathExists sample = false →
      delete_sample pathExists sample
        = { statusCode := 404, message := "Sample not found", removed := false }) ∧
    ((delete_sample pathExists sample).removed = true → pathExists sample = true) := by
  constructor
  · intro h
    simp [delete_sample, h]
  · intro h
    cases hb : pathExists sample
    · rw [delete_sample] at h
      simp [hb] at h
    · rfl

/-- C9 witness: a missing sample is answered 404 without deletion, and a
present sample does exist when the delete utility runs. -/
theorem delete_sample_notfound_witness :
    delete_sample (fun _ => false) "ghost"
      = { statusCode := 404, message := "Sample not found", removed := false } ∧
    (fun _ : String => true) "ghost" = true :=
  ⟨(delete_sample_notfound (fun _ => false) "ghost").1 rfl,
   (delete_sample_notfound (fun _ => true) "ghost").2 rfl⟩

/-- C10: with the save flag disabled, every request to the save endpoint —
whatever the body, valid or invalid JSON — is answered 403 with body
`SAVE BLOCKED`, and no `sample.json` file is written. -/
theorem save_blocked_when_disabled (file : String) (body : Except Unit JsonData) :
    save_slide_settings false file body = (.blocked 403 "SAVE BLOCKED", none) := rfl
